import Mathlib

/-!
# Verification of the BoolReminder indicator / classification / report-lifecycle core

A shallow embedding, in Lean 4, of the core logic of the `BoolReminder`
repository:

* `calculate_boll` — the Bollinger-band calculator
  (`src/boll_calculator.py`, `BOLLCalculator.calculate_boll`);
* `classify` / `analyzeAllStocks` — the per-instrument classifier and the
  scan aggregator (`src/watchlist_boll_filter.py`, `analyze_all_stocks`);
* `to_dict` / `from_dict` — the result model's JSON (de)serialization
  (`WatchlistBollFilterResult.to_dict` / `.from_dict`);
* `cleanup_old_reports` — the retention manager
  (`src/watchlist_boll_filter.py`, `_cleanup_old_reports`).

Python floats are embedded as exact rationals (ℚ); `statistics.stdev`,
which takes a real square root, is embedded through `Real.sqrt`.
Python's `round(x, 4)` (round-half-to-even at 4 decimal places) is
embedded by `round4`.  Raised exceptions are modelled by explicit error
constructors (`BollOutcome.raised`, `ScanError.zeroDivision`), since the
surrounding Python code distinguishes them from `None` returns.
-/

/-! ## A stable insertion sort

Python's `list.sort` is stable; on a total preorder every stable sort
produces the same output, so a stable insertion sort embeds it faithfully.
-/

def insertLe {α : Type} (le : α → α → Bool) (a : α) : List α → List α
  | [] => [a]
  | b :: l => if le a b then a :: b :: l else b :: insertLe le a l

def sortLe {α : Type} (le : α → α → Bool) : List α → List α
  | [] => []
  | a :: l => insertLe le a (sortLe le l)

theorem insertLe_length {α : Type} (le : α → α → Bool) (a : α) (l : List α) :
    (insertLe le a l).length = l.length + 1 := by
  induction l with
  | nil => rfl
  | cons b l ih =>
    simp only [insertLe]
    split
    · simp
    · simp [ih]

theorem sortLe_length {α : Type} (le : α → α → Bool) (l : List α) :
    (sortLe le l).length = l.length := by
  induction l with
  | nil => rfl
  | cons a l ih => simp [sortLe, insertLe_length, ih]

theorem mem_insertLe {α : Type} (le : α → α → Bool) (a x : α) (l : List α) :
    x ∈ insertLe le a l ↔ x = a ∨ x ∈ l := by
  induction l with
  | nil => simp [insertLe]
  | cons b l ih =>
    simp only [insertLe]
    split
    · simp [List.mem_cons]
    · simp only [List.mem_cons, ih]
      tauto

theorem mem_sortLe {α : Type} (le : α → α → Bool) (x : α) (l : List α) :
    x ∈ sortLe le l ↔ x ∈ l := by
  induction l with
  | nil => simp [sortLe]
  | cons a l ih => simp [sortLe, mem_insertLe, ih]

theorem insertLe_sorted {α : Type} (le : α → α → Bool)
    (htot : ∀ x y, le x y = false → le y x = true)
    (htrans : ∀ x y z, le x y = true → le y z = true → le x z = true)
    (a : α) (l : List α)
    (hl : l.Pairwise (fun x y => le x y = true)) :
    (insertLe le a l).Pairwise (fun x y => le x y = true) := by
  induction l with
  | nil => simp [insertLe]
  | cons b l ih =>
    rcases List.pairwise_cons.mp hl with ⟨hb, hl'⟩
    simp only [insertLe]
    split
    · rename_i hab
      refine List.pairwise_cons.mpr ⟨?_, hl⟩
      intro y hy
      rcases List.mem_cons.mp hy with rfl | hy
      · exact hab
      · exact htrans _ _ _ hab (hb y hy)
    · rename_i hab
      refine List.pairwise_cons.mpr ⟨?_, ih hl'⟩
      intro y hy
      rcases (mem_insertLe le a y l).mp hy with rfl | hy
      · exact htot _ _ (by simpa using hab)
      · exact hb y hy

theorem sortLe_sorted {α : Type} (le : α → α → Bool)
    (htot : ∀ x y, le x y = false → le y x = true)
    (htrans : ∀ x y z, le x y = true → le y z = true → le x z = true)
    (l : List α) :
    (sortLe le l).Pairwise (fun x y => le x y = true) := by
  induction l with
  | nil => simp [sortLe]
  | cons a l ih => exact insertLe_sorted le htot htrans a _ ih

/-! ## Python's `round(x, 4)`

`round(x, 4)` rounds to the nearest multiple of `1/10000`, resolving exact
ties to the even last digit (banker's rounding).  The result is always an
integer multiple of `1/10000`, hence a rational number.
-/

noncomputable def pyRound (x : ℝ) : ℤ :=
  if x - ⌊x⌋ < 1/2 then ⌊x⌋
  else if 1/2 < x - ⌊x⌋ then ⌊x⌋ + 1
  else if 2 ∣ ⌊x⌋ then ⌊x⌋ else ⌊x⌋ + 1

noncomputable def round4 (x : ℝ) : ℚ :=
  (pyRound (x * 10000) : ℚ) / 10000

theorem floor_le_pyRound (x : ℝ) : ⌊x⌋ ≤ pyRound x := by
  unfold pyRound
  split_ifs <;> omega

theorem pyRound_le_floor_add_one (x : ℝ) : pyRound x ≤ ⌊x⌋ + 1 := by
  unfold pyRound
  split_ifs <;> omega

theorem pyRound_eq_floor {x : ℝ} (h : x - ⌊x⌋ < 1/2) : pyRound x = ⌊x⌋ := by
  unfold pyRound
  rw [if_pos h]

theorem pyRound_eq_floor_add_one {x : ℝ} (h : 1/2 < x - ⌊x⌋) : pyRound x = ⌊x⌋ + 1 := by
  unfold pyRound
  rw [if_neg (by linarith), if_pos h]

theorem pyRound_intCast (z : ℤ) : pyRound (z : ℝ) = z := by
  have h : ((z : ℝ) : ℝ) - ⌊(z : ℝ)⌋ < 1/2 := by
    rw [Int.floor_intCast]
    simp
  simpa [Int.floor_intCast] using pyRound_eq_floor h

theorem abs_pyRound_sub_le (x : ℝ) : |(pyRound x : ℝ) - x| ≤ 1/2 := by
  have h0 : (⌊x⌋ : ℝ) ≤ x := Int.floor_le x
  have h1 : x < ⌊x⌋ + 1 := Int.lt_floor_add_one x
  unfold pyRound
  split_ifs with ha hb hc
  · rw [abs_le]; constructor <;> linarith
  · rw [abs_le]; push_cast; constructor <;> linarith
  · rw [abs_le]; constructor <;> linarith
  · rw [abs_le]; push_cast; constructor <;> linarith

theorem pyRound_mono {x y : ℝ} (h : x ≤ y) : pyRound x ≤ pyRound y := by
  have hf : ⌊x⌋ ≤ ⌊y⌋ := Int.floor_le_floor h
  rcases eq_or_lt_of_le hf with heq | hlt
  · have hfr : x - ⌊x⌋ ≤ y - ⌊y⌋ := by
      rw [← heq]
      linarith
    unfold pyRound
    rw [← heq]
    split_ifs <;> first | omega | linarith
  · have h1 : pyRound x ≤ ⌊x⌋ + 1 := pyRound_le_floor_add_one x
    have h2 : ⌊y⌋ ≤ pyRound y := floor_le_pyRound y
    omega

theorem round4_mono {x y : ℝ} (h : x ≤ y) : round4 x ≤ round4 y := by
  unfold round4
  have : pyRound (x * 10000) ≤ pyRound (y * 10000) := pyRound_mono (by linarith)
  have hc : (pyRound (x * 10000) : ℚ) ≤ (pyRound (y * 10000) : ℚ) := by exact_mod_cast this
  linarith

theorem abs_round4_sub_le (x : ℝ) : |((round4 x : ℚ) : ℝ) - x| ≤ 1/20000 := by
  have h := abs_pyRound_sub_le (x * 10000)
  have hq : ((round4 x : ℚ) : ℝ) = (pyRound (x * 10000) : ℝ) / 10000 := by
    unfold round4
    push_cast
    ring
  rw [hq]
  rw [abs_le] at h ⊢
  constructor
  · linarith
  · linarith

theorem round4_ratCast_div (z : ℤ) : round4 (((z : ℚ) / 10000 : ℚ) : ℝ) = (z : ℚ) / 10000 := by
  unfold round4
  have hx : (((z : ℚ) / 10000 : ℚ) : ℝ) * 10000 = (z : ℝ) := by
    push_cast
    ring
  rw [hx, pyRound_intCast]

theorem pyRound_add_half_even {z : ℤ} (h : 2 ∣ z) : pyRound ((z : ℝ) + 1/2) = z := by
  have hfl : ⌊(z : ℝ) + 1/2⌋ = z := by
    rw [Int.floor_eq_iff]
    constructor
    · linarith
    · linarith
  unfold pyRound
  rw [hfl]
  rw [if_neg (by linarith), if_neg (by linarith), if_pos h]

/-! ## Band Calculator (`BOLLCalculator.calculate_boll`, src/boll_calculator.py)

`calculate_boll` first returns `None` when the series is shorter than
`period` (line 35).  Otherwise it takes the trailing `period` closes
(`closes[-self.period:]`, line 39), the arithmetic mean (line 42), the
sample standard deviation `statistics.stdev` (line 45, Bessel-corrected,
divisor `n - 1`), forms `upper`/`lower` (lines 48-49), and returns all
three values rounded to 4 decimal places (lines 51-54).

A `period` of `0` raises `ZeroDivisionError` at the mean and a `period`
of `1` raises `StatisticsError` inside `statistics.stdev` (which needs at
least two data points); both raised exceptions are modelled by the
`raised` outcome, distinct from the `None` return.
-/

def recentCloses (period : ℕ) (closes : List ℚ) : List ℚ :=
  closes.drop (closes.length - period)

def bollMid (period : ℕ) (closes : List ℚ) : ℚ :=
  (recentCloses period closes).sum / period

def bollVar (period : ℕ) (closes : List ℚ) : ℚ :=
  ((recentCloses period closes).map
    (fun c => (c - bollMid period closes) ^ 2)).sum / ((period - 1 : ℕ) : ℚ)

noncomputable def bollSd (period : ℕ) (closes : List ℚ) : ℝ :=
  Real.sqrt (bollVar period closes)

noncomputable def bollUpperRaw (period : ℕ) (k : ℚ) (closes : List ℚ) : ℝ :=
  (bollMid period closes : ℝ) + (k : ℝ) * bollSd period closes

noncomputable def bollLowerRaw (period : ℕ) (k : ℚ) (closes : List ℚ) : ℝ :=
  (bollMid period closes : ℝ) - (k : ℝ) * bollSd period closes

structure BollBands where
  upper : ℚ
  mid : ℚ
  lower : ℚ
  period : ℕ
  k : ℚ
deriving DecidableEq

inductive BollOutcome where
  | insufficientData : BollOutcome
  | raised : BollOutcome
  | ok : BollBands → BollOutcome
deriving DecidableEq

noncomputable def bollBands (period : ℕ) (k : ℚ) (closes : List ℚ) : BollBands :=
  { upper := round4 (bollUpperRaw period k closes)
    mid := round4 ((bollMid period closes : ℝ))
    lower := round4 (bollLowerRaw period k closes)
    period := period
    k := k }

noncomputable def calculate_boll (period : ℕ) (k : ℚ) (closes : List ℚ) : BollOutcome :=
  if closes.length < period then .insufficientData
  else if period < 2 then .raised
  else .ok (bollBands period k closes)

/-! ## Classifier (`analyze_all_stocks`, src/watchlist_boll_filter.py lines 418-464)

The aggregator computes
`distance_from_lower_pct = (current_price - lower_band) / lower_band * 100`
(line 419) and
`distance_from_upper_pct = (current_price - upper_band) / upper_band * 100`
(line 422), then classifies by the `if`/`elif` chain of lines 446-464;
the classifier is made a standalone function of the price, the two bands
and the threshold, recomputing the same two distance expressions.
It is generic in the ordered field so that it can be applied both to the
rational values stored in snapshots and to real-valued band expressions.
-/

inductive Bucket where
  | belowLower : Bucket
  | aboveUpper : Bucket
  | nearLower : Bucket
  | nearUpper : Bucket
deriving DecidableEq

def classify {α : Type} [LinearOrderedField α]
    (price lower upper threshold : α) : Option Bucket :=
  if price < lower then some .belowLower
  else if upper < price then some .aboveUpper
  else if (price - lower) / lower * 100 ≤ threshold * 100 then some .nearLower
  else if |(price - upper) / upper * 100| ≤ threshold * 100 then some .nearUpper
  else none

/-! ## Currency mapping and snapshots (src/watchlist_boll_filter.py lines 27-67)

`MARKET_CURRENCY` is an insertion-ordered dict from market suffix to
`(currency symbol, currency code)`; `get_currency_info` returns the first
entry whose suffix matches, defaulting to `("$", "USD")`.

Python's `str.endswith` / `str.startswith` are embedded as suffix / "first
characters" tests on the character list of the string.
-/

def strEndsWith (s suf : String) : Bool :=
  s.data.reverse.take suf.data.length == suf.data.reverse

def strStartsWith (s t : String) : Bool :=
  s.data.take t.data.length == t.data

def MARKET_CURRENCY : List (String × String × String) :=
  [(".US", "$", "USD"),
   (".HK", "H", "HKD"),
   (".SH", "¥", "CNY"),
   (".SZ", "¥", "CNY"),
   (".T", "¥", "JPY"),
   (".SI", "S$", "SGD")]

def get_currency_info (symbol : String) : String × String :=
  match MARKET_CURRENCY.find? (fun e => strEndsWith symbol e.1) with
  | some e => (e.2.1, e.2.2)
  | none => ("$", "USD")

structure StockInfo where
  symbol : String
  display_name : String
  current_price : ℚ
  lower_band : ℚ
  mid_band : ℚ
  upper_band : ℚ
  distance_from_lower_pct : ℚ
  distance_from_upper_pct : ℚ
  position_pct : ℚ
  currency_symbol : String
  currency_code : String
deriving DecidableEq

/-- The per-instrument data handed to `analyze_all_stocks` by
`get_stock_boll_data` (src/watchlist_boll_filter.py lines 309-359): the
live price plus the three (already rounded) band values. -/
structure StockData where
  current_price : ℚ
  upper : ℚ
  mid : ℚ
  lower : ℚ
deriving DecidableEq

/-- `get_stock_boll_data` (lines 309-359): fetches `period + 5`
candlesticks and the live quote from the provider (modelled here as the
`closes` history and an optional live `price`), returns `None` when the
history is shorter than `period` (line 331), when `calculate_boll`
returns `None` (line 341) or raises (the blanket `except` of line 357),
or when no live quote is available (line 348). -/
noncomputable def get_stock_boll_data (period : ℕ) (k : ℚ)
    (closes : List ℚ) (price : Option ℚ) : Option StockData :=
  if closes.length < period then none
  else
    match calculate_boll period k closes with
    | .ok b =>
      match price with
      | some p => some { current_price := p, upper := b.upper, mid := b.mid, lower := b.lower }
      | none => none
    | _ => none

/-! ## Scan Aggregator (`analyze_all_stocks`, src/watchlist_boll_filter.py lines 362-477)

The loop body (lines 401-464) skips an instrument whose data fetch
failed, computes the two distance percentages (lines 419, 422) — these
divisions are NOT guarded, so a zero `lower_band` or `upper_band` raises
`ZeroDivisionError`, which propagates out of `analyze_all_stocks`
(modelled by `Except.error ScanError.zeroDivision`) — builds the
`StockInfo` snapshot (lines 431-443, including the guarded
`position_pct` of line 440), and appends it to the bucket chosen by the
`if`/`elif` chain of lines 446-464.  After the loop the totals are set
(lines 467-469) and each bucket is sorted (lines 472-475).
-/

inductive ScanError where
  | zeroDivision : ScanError
deriving DecidableEq

structure BucketLists where
  below_lower : List StockInfo
  near_lower : List StockInfo
  near_upper : List StockInfo
  above_upper : List StockInfo
deriving DecidableEq

def mkStockInfo (symbol : String) (symbol_to_name : List (String × String))
    (d : StockData) : StockInfo :=
  { symbol := symbol
    display_name :=
      if strEndsWith symbol ".US" then symbol
      else ((symbol_to_name.lookup symbol).getD symbol)
    current_price := d.current_price
    lower_band := d.lower
    mid_band := d.mid
    upper_band := d.upper
    distance_from_lower_pct := (d.current_price - d.lower) / d.lower * 100
    distance_from_upper_pct := (d.current_price - d.upper) / d.upper * 100
    position_pct :=
      if 0 < d.upper - d.lower
      then (d.current_price - d.lower) / (d.upper - d.lower) * 100
      else 50
    currency_symbol := (get_currency_info symbol).1
    currency_code := (get_currency_info symbol).2 }

def addToBucket (b : Bucket) (si : StockInfo) (bs : BucketLists) : BucketLists :=
  match b with
  | .belowLower => { bs with below_lower := si :: bs.below_lower }
  | .aboveUpper => { bs with above_upper := si :: bs.above_upper }
  | .nearLower => { bs with near_lower := si :: bs.near_lower }
  | .nearUpper => { bs with near_upper := si :: bs.near_upper }

def analyzeSymbols (symbol_to_name : List (String × String)) (threshold : ℚ)
    (fetch : String → Option StockData) : List String → Except ScanError BucketLists
  | [] => .ok { below_lower := [], near_lower := [], near_upper := [], above_upper := [] }
  | s :: rest =>
    match fetch s with
    | none => analyzeSymbols symbol_to_name threshold fetch rest
    | some d =>
      if d.lower = 0 then .error .zeroDivision
      else if d.upper = 0 then .error .zeroDivision
      else
        match classify d.current_price d.lower d.upper threshold with
        | some b =>
          (analyzeSymbols symbol_to_name threshold fetch rest).map
            (addToBucket b (mkStockInfo s symbol_to_name d))
        | none => analyzeSymbols symbol_to_name threshold fetch rest

structure WatchlistBollFilterResult where
  period : ℕ
  k : ℚ
  threshold : ℚ
  total_analyzed : ℕ
  total_found : ℕ
  update_time : String
  below_lower : List StockInfo
  near_lower : List StockInfo
  near_upper : List StockInfo
  above_upper : List StockInfo
  all_symbols : List String
  symbol_to_name : List (String × String)
deriving DecidableEq

def dflAsc (a b : StockInfo) : Bool :=
  decide (a.distance_from_lower_pct ≤ b.distance_from_lower_pct)

def dfuDesc (a b : StockInfo) : Bool :=
  decide (b.distance_from_upper_pct ≤ a.distance_from_upper_pct)

def analyzeAllStocks (symbols : List String) (symbol_to_name : List (String × String))
    (period : ℕ) (k : ℚ) (threshold : ℚ) (update_time : String)
    (fetch : String → Option StockData) : Except ScanError WatchlistBollFilterResult :=
  (analyzeSymbols symbol_to_name threshold fetch symbols).map fun bs =>
    { period := period
      k := k
      threshold := threshold
      total_analyzed := symbols.length
      total_found := bs.below_lower.length + bs.near_lower.length
        + bs.near_upper.length + bs.above_upper.length
      update_time := update_time
      below_lower := sortLe dflAsc bs.below_lower
      near_lower := sortLe dflAsc bs.near_lower
      near_upper := sortLe dfuDesc bs.near_upper
      above_upper := sortLe dfuDesc bs.above_upper
      all_symbols := symbols
      symbol_to_name := symbol_to_name }

/-! ## Result serialization (`to_dict` / `from_dict`, src/watchlist_boll_filter.py lines 91-162)

The persisted JSON object is modelled structurally: every key that
`from_dict` reads through `.get` (or guards with `in data`) is an
`Option` field, so absent keys and their defaults are represented
faithfully.  `to_dict` always writes every key.
-/

structure StockInfoDict where
  symbol : String
  display_name : String
  current_price : ℚ
  lower_band : ℚ
  mid_band : ℚ
  upper_band : ℚ
  distance_from_lower_pct : ℚ
  distance_from_upper_pct : ℚ
  position_pct : ℚ
  currency_symbol : String
  currency_code : String
deriving DecidableEq

/-- `_stock_info_to_dict` (lines 118-132): all eleven fields are written. -/
def stock_info_to_dict (s : StockInfo) : StockInfoDict :=
  { symbol := s.symbol
    display_name := s.display_name
    current_price := s.current_price
    lower_band := s.lower_band
    mid_band := s.mid_band
    upper_band := s.upper_band
    distance_from_lower_pct := s.distance_from_lower_pct
    distance_from_upper_pct := s.distance_from_upper_pct
    position_pct := s.position_pct
    currency_symbol := s.currency_symbol
    currency_code := s.currency_code }

/-- `StockInfo(**s)` (lines 153-156): rebuilding a snapshot from its dict. -/
def stockInfoOfDict (s : StockInfoDict) : StockInfo :=
  { symbol := s.symbol
    display_name := s.display_name
    current_price := s.current_price
    lower_band := s.lower_band
    mid_band := s.mid_band
    upper_band := s.upper_band
    distance_from_lower_pct := s.distance_from_lower_pct
    distance_from_upper_pct := s.distance_from_upper_pct
    position_pct := s.position_pct
    currency_symbol := s.currency_symbol
    currency_code := s.currency_code }

structure ConfigDict where
  period : Option ℕ
  k : Option ℚ
  threshold : Option ℚ
deriving DecidableEq

structure SummaryDict where
  total_analyzed : Option ℕ
  total_found : Option ℕ
  below_lower_count : Option ℕ
  near_lower_count : Option ℕ
  near_upper_count : Option ℕ
  above_upper_count : Option ℕ
  update_time : Option String
deriving DecidableEq

structure ResultsDict where
  below_lower : Option (List StockInfoDict)
  near_lower : Option (List StockInfoDict)
  near_upper : Option (List StockInfoDict)
  above_upper : Option (List StockInfoDict)
deriving DecidableEq

structure ResultDict where
  config : Option ConfigDict
  summary : Option SummaryDict
  results : Option ResultsDict
  all_symbols : Option (List String)
  symbol_to_name : Option (List (String × String))
deriving DecidableEq

/-- `WatchlistBollFilterResult.to_dict` (lines 91-116). -/
def to_dict (r : WatchlistBollFilterResult) : ResultDict :=
  { config := some { period := some r.period, k := some r.k, threshold := some r.threshold }
    summary := some
      { total_analyzed := some r.total_analyzed
        total_found := some r.total_found
        below_lower_count := some r.below_lower.length
        near_lower_count := some r.near_lower.length
        near_upper_count := some r.near_upper.length
        above_upper_count := some r.above_upper.length
        update_time := some r.update_time }
    results := some
      { below_lower := some (r.below_lower.map stock_info_to_dict)
        near_lower := some (r.near_lower.map stock_info_to_dict)
        near_upper := some (r.near_upper.map stock_info_to_dict)
        above_upper := some (r.above_upper.map stock_info_to_dict) }
    all_symbols := some r.all_symbols
    symbol_to_name := some r.symbol_to_name }

/-- The `cls()` defaults of the dataclass (lines 74-89). -/
def defaultResult : WatchlistBollFilterResult :=
  { period := 22
    k := 2
    threshold := 1/10
    total_analyzed := 0
    total_found := 0
    update_time := ""
    below_lower := []
    near_lower := []
    near_upper := []
    above_upper := []
    all_symbols := []
    symbol_to_name := [] }

/-- `WatchlistBollFilterResult.from_dict` (lines 134-162): missing keys
fall back to the dataclass defaults (`config`, `summary`) or to the
`.get` defaults; nothing is recomputed or validated. -/
def from_dict (data : ResultDict) : WatchlistBollFilterResult :=
  let r0 := defaultResult
  let r1 :=
    match data.config with
    | some c =>
      { r0 with
        period := c.period.getD 22
        k := c.k.getD 2
        threshold := c.threshold.getD (1/10) }
    | none => r0
  let r2 :=
    match data.summary with
    | some s =>
      { r1 with
        total_analyzed := s.total_analyzed.getD 0
        total_found := s.total_found.getD 0
        update_time := s.update_time.getD "" }
    | none => r1
  let r3 :=
    match data.results with
    | some res =>
      { r2 with
        below_lower := (res.below_lower.getD []).map stockInfoOfDict
        near_lower := (res.near_lower.getD []).map stockInfoOfDict
        near_upper := (res.near_upper.getD []).map stockInfoOfDict
        above_upper := (res.above_upper.getD []).map stockInfoOfDict }
    | none => r2
  { r3 with
    all_symbols := data.all_symbols.getD []
    symbol_to_name := data.symbol_to_name.getD [] }

theorem stockInfoOfDict_to_dict (s : StockInfo) :
    stockInfoOfDict (stock_info_to_dict s) = s := rfl

/-- Serialize-then-deserialize is the identity on result objects. -/
theorem from_dict_to_dict (r : WatchlistBollFilterResult) :
    from_dict (to_dict r) = r := by
  cases r
  simp [from_dict, to_dict, defaultResult, List.map_map]
  constructor <;> simp [Function.comp_def, stockInfoOfDict_to_dict]

/-! ## Retention Manager (`_cleanup_old_reports`, src/watchlist_boll_filter.py lines 621-686)

The function lists `boll_report_*.html` (the glob never matches the
`latest_result.json` cache, line 643), sorts by modification time with
the newest first (line 650), and walks the sorted list: entry `i` is
deleted when `keep_count > 0 ∧ i ≥ keep_count` (line 662) or when
`keep_days > 0 ∧ (now - mtime)/86400 > keep_days` (lines 666-668); the
companion `.json` of a deleted report is removed with it (line 679).
The embedding returns the list of deleted report artifacts.
-/

structure ReportFile where
  name : String
  mtime : ℚ
deriving DecidableEq

structure CleanupConfig where
  enabled : Bool
  keep_days : ℤ
  keep_count : ℤ
deriving DecidableEq

def matchesReportGlob (nm : String) : Bool :=
  strStartsWith nm "boll_report_" && strEndsWith nm ".html"

def mtimeDesc (a b : ReportFile) : Bool :=
  decide (b.mtime ≤ a.mtime)

def shouldDelete (cfg : CleanupConfig) (now : ℚ) (i : ℕ) (f : ReportFile) : Bool :=
  (decide (0 < cfg.keep_count) && decide (cfg.keep_count ≤ (i : ℤ)))
    || (decide (0 < cfg.keep_days) && decide ((cfg.keep_days : ℚ) < (now - f.mtime) / (24 * 3600)))

def cleanup_old_reports (cfg : CleanupConfig) (now : ℚ) (dir : List ReportFile) :
    List ReportFile :=
  if !cfg.enabled then []
  else
    ((sortLe mtimeDesc (dir.filter (fun f => matchesReportGlob f.name))).enum.filter
      (fun p => shouldDelete cfg now p.1 p.2)).map Prod.snd

/-! ## Helper lemmas for evaluating `round4` on concrete values -/

theorem round4_exact {q : ℚ} {z : ℤ} (hz : q * 10000 = (z : ℚ)) :
    round4 ((q : ℚ) : ℝ) = q := by
  unfold round4
  have hx : ((q : ℚ) : ℝ) * 10000 = ((z : ℤ) : ℝ) := by
    exact_mod_cast congrArg (fun a : ℚ => (a : ℝ)) hz
  rw [hx, pyRound_intCast, ← hz]
  field_simp

theorem round4_half_even {x : ℝ} {z : ℤ} (hx : x * 10000 = (z : ℝ) + 1/2)
    (he : 2 ∣ z) : round4 x = (z : ℚ) / 10000 := by
  unfold round4
  rw [hx, pyRound_add_half_even he]

theorem round4_eq_of_lt_half {x : ℝ} {z : ℤ} (h1 : (z : ℝ) ≤ x * 10000)
    (h2 : x * 10000 < (z : ℝ) + 1/2) : round4 x = (z : ℚ) / 10000 := by
  have hfl : ⌊x * 10000⌋ = z := by
    rw [Int.floor_eq_iff]
    constructor
    · exact h1
    · linarith
  unfold round4
  rw [pyRound_eq_floor (by rw [hfl] ; linarith), hfl]

theorem round4_eq_of_gt_half {x : ℝ} {z : ℤ} (h1 : (z : ℝ) - 1/2 < x * 10000)
    (h2 : x * 10000 ≤ (z : ℝ)) : round4 x = (z : ℚ) / 10000 := by
  rcases eq_or_lt_of_le h2 with heq | hlt
  · have hz : x * 10000 = ((z : ℤ) : ℝ) := heq
    unfold round4
    rw [hz, pyRound_intCast]
  · have hfl : ⌊x * 10000⌋ = z - 1 := by
      rw [Int.floor_eq_iff]
      constructor
      · push_cast
        linarith
      · push_cast
        linarith
    unfold round4
    rw [pyRound_eq_floor_add_one (by rw [hfl]; push_cast; linarith), hfl]
    push_cast
    ring_nf

/-! ## Spec-side band formulas (for the refinement statement of the calculator)

These follow the words of the specification (§3 "Bands", §4.1): the window
is "the most recent `period` prices", `mid` their arithmetic mean, and the
standard deviation is "sample ... i.e. divisor `period − 1`" of the same
prices.  They are deliberately written independently of the source-side
`recentCloses`/`bollMid`/`bollVar`.
-/

def specWindow (period : ℕ) (closes : List ℚ) : List ℚ :=
  (closes.reverse.take period).reverse

def specMean (period : ℕ) (closes : List ℚ) : ℚ :=
  (specWindow period closes).sum / period

def specSampleVar (period : ℕ) (closes : List ℚ) : ℚ :=
  ((specWindow period closes).map (fun c => (c - specMean period closes) ^ 2)).sum
    / ((period : ℚ) - 1)

/-- Projection of the `mid` band out of a calculator outcome. -/
def outcomeMid : BollOutcome → Option ℚ
  | .ok b => some b.mid
  | _ => none

/-! ## The claims -/

/-- C1: the classifier assigns exactly one bucket, by the fixed priority
order (1) `price < lower` → below_lower, (2) `price > upper` →
above_upper, (3) `distance_from_lower_pct ≤ threshold·100` → near_lower,
(4) `|distance_from_upper_pct| ≤ threshold·100` → near_upper, (5)
otherwise no bucket; first match wins, so the five cases are a total,
mutually exclusive partition, and a price exactly equal to `lower` is
never below_lower (the comparison is strict). -/
theorem claim_C1_classifier_partition (price lower upper t : ℚ) :
    (classify price lower upper t = some Bucket.belowLower ↔ price < lower) ∧
    (classify price lower upper t = some Bucket.aboveUpper ↔
      ¬ price < lower ∧ upper < price) ∧
    (classify price lower upper t = some Bucket.nearLower ↔
      ¬ price < lower ∧ ¬ upper < price ∧
        (price - lower) / lower * 100 ≤ t * 100) ∧
    (classify price lower upper t = some Bucket.nearUpper ↔
      ¬ price < lower ∧ ¬ upper < price ∧
        ¬ (price - lower) / lower * 100 ≤ t * 100 ∧
        |(price - upper) / upper * 100| ≤ t * 100) ∧
    (classify price lower upper t = none ↔
      ¬ price < lower ∧ ¬ upper < price ∧
        ¬ (price - lower) / lower * 100 ≤ t * 100 ∧
        ¬ |(price - upper) / upper * 100| ≤ t * 100) ∧
    classify lower lower upper t ≠ some Bucket.belowLower := by
  refine ⟨?_, ?_, ?_, ?_, ?_, ?_⟩ <;>
  · unfold classify
    split_ifs <;> simp_all

/-- C1 witness: at concrete inputs, a price strictly below the lower band
is below_lower, while a price exactly at the lower band falls through to
near_lower. -/
theorem claim_C1_witness :
    classify (0 : ℚ) 1 2 (1/10) = some Bucket.belowLower ∧
    classify (1 : ℚ) 1 2 (1/10) = some Bucket.nearLower :=
  ⟨(claim_C1_classifier_partition 0 1 2 (1/10)).1.mpr (by norm_num),
   (claim_C1_classifier_partition 1 1 2 (1/10)).2.2.1.mpr
     ⟨by norm_num, by norm_num, by norm_num⟩⟩

/-- C3: a price series shorter than `period` makes the Band Calculator
signal insufficient data (the `None` return of line 35, carrying no
bands), and a series of length ≥ `period` never signals insufficient
data. -/
theorem claim_C3_insufficient_data (period : ℕ) (k : ℚ) (closes : List ℚ) :
    (closes.length < period →
      calculate_boll period k closes = BollOutcome.insufficientData) ∧
    (period ≤ closes.length →
      calculate_boll period k closes ≠ BollOutcome.insufficientData) := by
  constructor
  · intro h
    unfold calculate_boll
    rw [if_pos h]
  · intro h
    unfold calculate_boll
    rw [if_neg (by omega)]
    split_ifs <;> simp

/-- C3 witness: a 3-element series with `period = 22` yields the
insufficient-data signal; a 22-element series does not. -/
theorem claim_C3_witness :
    (([1, 2, 3] : List ℚ).length < 22 ∧
      calculate_boll 22 2 [1, 2, 3] = BollOutcome.insufficientData) ∧
    (22 ≤ (List.replicate 22 (1 : ℚ)).length ∧
      calculate_boll 22 2 (List.replicate 22 (1 : ℚ)) ≠ BollOutcome.insufficientData) :=
  ⟨⟨by simp, (claim_C3_insufficient_data 22 2 [1, 2, 3]).1 (by simp)⟩,
   ⟨by simp, (claim_C3_insufficient_data 22 2 (List.replicate 22 (1 : ℚ))).2 (by simp)⟩⟩

/-- C6: serializing a result to the persisted dictionary format and
deserializing it yields an identical result — same bucket contents field
for field, same counts, same configuration. -/
theorem claim_C6_roundtrip (r : WatchlistBollFilterResult) :
    from_dict (to_dict r) = r :=
  from_dict_to_dict r

/-- C4 (the code at the claimed behaviour's failing input): a degenerate
all-zero price history makes `calculate_boll` return a zero lower band,
and feeding an instrument with a zero lower band to `analyze_all_stocks`
raises `ZeroDivisionError` at line 419 — the scan aborts instead of
excluding the instrument. -/
theorem claim_C4_zero_band_aborts_scan :
    calculate_boll 22 2 (List.replicate 22 0) =
      BollOutcome.ok { upper := 0, mid := 0, lower := 0, period := 22, k := 2 } ∧
    analyzeAllStocks ["TEST.US"] [] 22 2 (1/10) "2025-01-01 00:00:00"
      (fun _ => some { current_price := 1, upper := 0, mid := 0, lower := 0 }) =
      Except.error ScanError.zeroDivision := by
  constructor
  · have hrec : recentCloses 22 (List.replicate 22 (0 : ℚ)) = List.replicate 22 (0 : ℚ) := by
      simp [recentCloses]
    have hmid : bollMid 22 (List.replicate 22 0) = 0 := by
      rw [bollMid, hrec]
      simp
    have hvar : bollVar 22 (List.replicate 22 0) = 0 := by
      rw [bollVar, hrec, hmid]
      simp
    have hsd : bollSd 22 (List.replicate 22 0) = 0 := by
      unfold bollSd
      rw [hvar]
      simp
    unfold calculate_boll
    rw [if_neg (by simp), if_neg (by omega)]
    unfold bollBands bollUpperRaw bollLowerRaw
    rw [hmid, hsd]
    have h0 : round4 ((0 : ℝ)) = 0 := by
      have h := @round4_exact 0 0 (by norm_num)
      simpa using h
    simp only [Rat.cast_zero, mul_zero, add_zero, sub_zero, h0]
  · rfl

theorem specWindow_eq_recentCloses (period : ℕ) (closes : List ℚ) :
    specWindow period closes = recentCloses period closes := by
  unfold specWindow recentCloses
  rw [← List.rtake_eq_reverse_take_reverse]
  rfl

theorem recentCloses_append (period : ℕ) (pre closes : List ℚ)
    (h : period ≤ closes.length) :
    recentCloses period (pre ++ closes) = recentCloses period closes := by
  unfold recentCloses
  rw [List.length_append,
    show pre.length + closes.length - period = pre.length + (closes.length - period) by omega,
    List.drop_append_eq_append_drop, List.drop_eq_nil_of_le (by omega)]
  simp

/-- C2 (amended for the 4-decimal rounding of the return values, see the
counterexample): for every series of length ≥ `period` (with `period ≥ 2`
so that the sample standard deviation exists), the calculator returns the
bands computed over exactly the last `period` elements — upper/mid/lower
are the 4-decimal roundings of `mean + k·σ`, `mean`, `mean − k·σ`, where
`mean` is the arithmetic mean and `σ` the Bessel-corrected (divisor
`period − 1`) sample standard deviation of those elements, written here
through the spec-side formulas — and earlier elements of the series have
no effect on the result. -/
theorem claim_C2_trailing_window_sample_stdev (period : ℕ) (k : ℚ)
    (closes pre : List ℚ) (h2 : 2 ≤ period) (hlen : period ≤ closes.length) :
    calculate_boll period k closes =
      BollOutcome.ok
        { upper := round4 ((specMean period closes : ℝ)
            + (k : ℝ) * Real.sqrt ((specSampleVar period closes : ℚ) : ℝ))
          mid := round4 ((specMean period closes : ℝ))
          lower := round4 ((specMean period closes : ℝ)
            - (k : ℝ) * Real.sqrt ((specSampleVar period closes : ℚ) : ℝ))
          period := period
          k := k } ∧
    calculate_boll period k (pre ++ closes) = calculate_boll period k closes := by
  have hw : specWindow period closes = recentCloses period closes :=
    specWindow_eq_recentCloses period closes
  have hmean : specMean period closes = bollMid period closes := by
    unfold specMean bollMid
    rw [hw]
  have hvar : specSampleVar period closes = bollVar period closes := by
    unfold specSampleVar bollVar
    rw [hw, hmean]
    have hcast : ((period - 1 : ℕ) : ℚ) = (period : ℚ) - 1 := by
      rw [Nat.cast_sub (by omega)]
      norm_num
    rw [hcast]
  constructor
  · unfold calculate_boll
    rw [if_neg (by omega), if_neg (by omega)]
    unfold bollBands bollUpperRaw bollLowerRaw bollSd
    rw [hmean, hvar]
  · have hrec : recentCloses period (pre ++ closes) = recentCloses period closes :=
      recentCloses_append period pre closes hlen
    unfold calculate_boll
    rw [if_neg (by simp only [List.length_append]; omega), if_neg (by omega),
      if_neg (by omega), if_neg (by omega)]
    unfold bollBands bollUpperRaw bollLowerRaw bollSd bollVar bollMid
    rw [hrec]

/-- C2 counterexample: the claim's exact equality `mid = arithmetic mean`
fails on the code, because `calculate_boll` rounds its return values to 4
decimal places (src/boll_calculator.py lines 51-54): for the series
`[0, 0, 1]` with `period = 3` the returned `mid` is `0.3333`, strictly
below the arithmetic mean `1/3`. -/
theorem claim_C2_counterexample :
    outcomeMid (calculate_boll 3 2 [0, 0, 1]) = some (3333/10000) ∧
    (3333/10000 : ℚ) < (0 + 0 + 1) / 3 := by
  constructor
  · have hmid : bollMid 3 [0, 0, 1] = 1/3 := by
      unfold bollMid recentCloses
      norm_num
    unfold calculate_boll
    rw [if_neg (by simp), if_neg (by omega)]
    unfold outcomeMid bollBands
    rw [hmid]
    have hr : round4 (((1/3 : ℚ) : ℝ)) = 3333/10000 := by
      have h := @round4_eq_of_lt_half (((1/3 : ℚ) : ℝ)) 3333 (by push_cast; norm_num)
        (by push_cast; norm_num)
      rw [h]
      norm_num
    rw [hr]
  · norm_num

/-- C2 witness: the amended statement at the concrete series `[0, 2, 4]`
with `period = 3`, `k = 2`, and the earlier element `9` prepended. -/
theorem claim_C2_witness :
    (2 ≤ 3 ∧ 3 ≤ ([0, 2, 4] : List ℚ).length) ∧
    (calculate_boll 3 2 [0, 2, 4] =
      BollOutcome.ok
        { upper := round4 ((specMean 3 [0, 2, 4] : ℝ)
            + ((2 : ℚ) : ℝ) * Real.sqrt ((specSampleVar 3 [0, 2, 4] : ℚ) : ℝ))
          mid := round4 ((specMean 3 [0, 2, 4] : ℝ))
          lower := round4 ((specMean 3 [0, 2, 4] : ℝ)
            - ((2 : ℚ) : ℝ) * Real.sqrt ((specSampleVar 3 [0, 2, 4] : ℚ) : ℝ))
          period := 3
          k := 2 } ∧
      calculate_boll 3 2 ([9] ++ [0, 2, 4]) = calculate_boll 3 2 [0, 2, 4]) :=
  ⟨⟨by norm_num, by simp⟩,
   claim_C2_trailing_window_sample_stdev 3 2 [0, 2, 4] [9] (by norm_num) (by simp)⟩

/-- C7 (amended): rounding to 4 decimal places happens inside the Band
Calculator, at its return boundary (src/boll_calculator.py lines 51-54),
not only at presentation: the values `get_stock_boll_data` hands to the
classifier are exactly the rounded `upper`, `mid`, `lower`, each within
`1/20000` of the corresponding unrounded value — so a (half-unit)
rounding error does reach the classifier. -/
theorem claim_C7_classifier_consumes_rounded_bands (period : ℕ) (k p : ℚ)
    (closes : List ℚ) (h2 : 2 ≤ period) (hlen : period ≤ closes.length) :
    calculate_boll period k closes = BollOutcome.ok (bollBands period k closes) ∧
    get_stock_boll_data period k closes (some p) =
      some { current_price := p
             upper := (bollBands period k closes).upper
             mid := (bollBands period k closes).mid
             lower := (bollBands period k closes).lower } ∧
    |((bollBands period k closes).upper : ℝ) - bollUpperRaw period k closes| ≤ 1/20000 ∧
    |((bollBands period k closes).mid : ℝ) - (bollMid period closes : ℝ)| ≤ 1/20000 ∧
    |((bollBands period k closes).lower : ℝ) - bollLowerRaw period k closes| ≤ 1/20000 := by
  have hcalc : calculate_boll period k closes = BollOutcome.ok (bollBands period k closes) := by
    unfold calculate_boll
    rw [if_neg (by omega), if_neg (by omega)]
  refine ⟨hcalc, ?_, ?_, ?_, ?_⟩
  · unfold get_stock_boll_data
    rw [if_neg (by omega), hcalc]
  · exact abs_round4_sub_le (bollUpperRaw period k closes)
  · exact abs_round4_sub_le ((bollMid period closes : ℝ))
  · exact abs_round4_sub_le (bollLowerRaw period k closes)

/-- C7 witness: the amended statement at `period = 3`, `k = 2`, live
price `5`, series `[0, 2, 4]`. -/
theorem claim_C7_witness :
    (2 ≤ 3 ∧ 3 ≤ ([0, 2, 4] : List ℚ).length) ∧
    (calculate_boll 3 2 [0, 2, 4] = BollOutcome.ok (bollBands 3 2 [0, 2, 4]) ∧
     get_stock_boll_data 3 2 [0, 2, 4] (some 5) =
       some { current_price := 5
              upper := (bollBands 3 2 [0, 2, 4]).upper
              mid := (bollBands 3 2 [0, 2, 4]).mid
              lower := (bollBands 3 2 [0, 2, 4]).lower } ∧
     |((bollBands 3 2 [0, 2, 4]).upper : ℝ) - bollUpperRaw 3 2 [0, 2, 4]| ≤ 1/20000 ∧
     |((bollBands 3 2 [0, 2, 4]).mid : ℝ) - (bollMid 3 [0, 2, 4] : ℝ)| ≤ 1/20000 ∧
     |((bollBands 3 2 [0, 2, 4]).lower : ℝ) - bollLowerRaw 3 2 [0, 2, 4]| ≤ 1/20000) :=
  ⟨⟨by norm_num, by simp⟩,
   claim_C7_classifier_consumes_rounded_bands 3 2 5 [0, 2, 4] (by norm_num) (by simp)⟩

/-- C7 counterexample: the claim "the classifier consumes the unrounded
values" fails.  For the constant series of 22 closes at `0.12345`, the
unrounded bands are all `0.12345`, but the calculator returns `0.1234`
(banker's rounding at 4 places), and the classifier puts the price
`0.1234` in near_lower on the returned bands, whereas on the unrounded
bands the same price is below_lower — the rounding error changes the
classification. -/
theorem claim_C7_counterexample :
    calculate_boll 22 2 (List.replicate 22 (12345/100000)) =
      BollOutcome.ok
        { upper := 1234/10000, mid := 1234/10000, lower := 1234/10000,
          period := 22, k := 2 } ∧
    (1234/10000 : ℚ) < 12345/100000 ∧
    classify (1234/10000 : ℚ) (1234/10000) (1234/10000) (1/10) = some Bucket.nearLower ∧
    classify (1234/10000 : ℚ) (12345/100000) (12345/100000) (1/10) = some Bucket.belowLower := by
  refine ⟨?_, by norm_num, ?_, ?_⟩
  · have hrec : recentCloses 22 (List.replicate 22 ((12345:ℚ)/100000)) =
        List.replicate 22 ((12345:ℚ)/100000) := by
      simp [recentCloses]
    have hmid : bollMid 22 (List.replicate 22 (12345/100000)) = 12345/100000 := by
      rw [bollMid, hrec]
      simp [List.sum_replicate]
      norm_num
    have hvar : bollVar 22 (List.replicate 22 (12345/100000)) = 0 := by
      rw [bollVar, hrec, hmid]
      simp
    have hsd : bollSd 22 (List.replicate 22 (12345/100000)) = 0 := by
      unfold bollSd
      rw [hvar]
      simp
    have hround : round4 (((12345/100000 : ℚ) : ℝ)) = 1234/10000 := by
      have h := @round4_half_even (((12345/100000 : ℚ) : ℝ)) 1234
        (by push_cast; norm_num) ⟨617, by norm_num⟩
      rw [h]
      norm_num
    unfold calculate_boll
    rw [if_neg (by simp), if_neg (by omega)]
    unfold bollBands bollUpperRaw bollLowerRaw
    rw [hmid, hsd]
    simp only [mul_zero, add_zero, sub_zero, hround]
  · unfold classify
    rw [if_neg (by norm_num), if_neg (by norm_num), if_pos (by norm_num)]
  · unfold classify
    rw [if_pos (by norm_num)]

theorem sum_map_sq_nonneg (l : List ℚ) (m : ℚ) :
    0 ≤ (l.map (fun c => (c - m) ^ 2)).sum := by
  induction l with
  | nil => simp
  | cons a l ih =>
    simp only [List.map_cons, List.sum_cons]
    have := sq_nonneg (a - m)
    linarith

theorem bollVar_nonneg (period : ℕ) (closes : List ℚ) :
    0 ≤ bollVar period closes := by
  unfold bollVar
  apply div_nonneg
  · exact sum_map_sq_nonneg _ _
  · positivity

/-- C8 (amended for the 4-decimal rounding of the return values, see the
counterexample): on a window with non-zero variance and positive `k`, the
unrounded band values satisfy the strict ordering
`lower < mid < upper`; the returned (rounded) values are only guaranteed
the non-strict ordering `lower ≤ mid ≤ upper`, since rounding can
collapse a gap smaller than a half-unit in the fourth decimal place. -/
theorem claim_C8_band_ordering (period : ℕ) (k : ℚ) (closes : List ℚ)
    (h2 : 2 ≤ period) (hlen : period ≤ closes.length)
    (hvar : bollVar period closes ≠ 0) (hk : 0 < k) :
    calculate_boll period k closes = BollOutcome.ok (bollBands period k closes) ∧
    (bollBands period k closes).lower ≤ (bollBands period k closes).mid ∧
    (bollBands period k closes).mid ≤ (bollBands period k closes).upper ∧
    bollLowerRaw period k closes < (bollMid period closes : ℝ) ∧
    (bollMid period closes : ℝ) < bollUpperRaw period k closes := by
  have hpos : 0 < bollVar period closes :=
    lt_of_le_of_ne (bollVar_nonneg period closes) (Ne.symm hvar)
  have hsd : 0 < bollSd period closes := by
    unfold bollSd
    apply Real.sqrt_pos.mpr
    exact_mod_cast hpos
  have hks : 0 < (k : ℝ) * bollSd period closes :=
    mul_pos (by exact_mod_cast hk) hsd
  refine ⟨?_, ?_, ?_, ?_, ?_⟩
  · unfold calculate_boll
    rw [if_neg (by omega), if_neg (by omega)]
  · exact round4_mono (by unfold bollLowerRaw; linarith)
  · exact round4_mono (by unfold bollUpperRaw; linarith)
  · unfold bollLowerRaw
    linarith
  · unfold bollUpperRaw
    linarith

/-- C8 witness: the amended statement at `period = 3`, `k = 2`, series
`[0, 2, 4]` (window variance `4`). -/
theorem claim_C8_witness :
    (2 ≤ 3 ∧ 3 ≤ ([0, 2, 4] : List ℚ).length ∧
      bollVar 3 [0, 2, 4] = 4 ∧ (0 : ℚ) < 2) ∧
    (calculate_boll 3 2 [0, 2, 4] = BollOutcome.ok (bollBands 3 2 [0, 2, 4]) ∧
     (bollBands 3 2 [0, 2, 4]).lower ≤ (bollBands 3 2 [0, 2, 4]).mid ∧
     (bollBands 3 2 [0, 2, 4]).mid ≤ (bollBands 3 2 [0, 2, 4]).upper ∧
     bollLowerRaw 3 2 [0, 2, 4] < (bollMid 3 [0, 2, 4] : ℝ) ∧
     (bollMid 3 [0, 2, 4] : ℝ) < bollUpperRaw 3 2 [0, 2, 4]) := by
  have hvar : bollVar 3 [0, 2, 4] = 4 := by
    unfold bollVar bollMid recentCloses
    norm_num
  exact ⟨⟨by norm_num, by simp, hvar, by norm_num⟩,
    claim_C8_band_ordering 3 2 [0, 2, 4] (by norm_num) (by simp)
      (by rw [hvar]; norm_num) (by norm_num)⟩

/-- C8 counterexample: the claim's strict ordering `lower < mid < upper`
of the returned values fails.  The series
`[0.99999, 1, 1.00001]` (`period = 3`, `k = 2`) has non-zero window
variance `10⁻¹⁰`, yet all three returned band values are `1.0` — the
band gap `2·10⁻⁵` is destroyed by the 4-decimal rounding of the return
values. -/
theorem claim_C8_counterexample :
    0 < bollVar 3 [99999/100000, 1, 100001/100000] ∧
    calculate_boll 3 2 [99999/100000, 1, 100001/100000] =
      BollOutcome.ok { upper := 1, mid := 1, lower := 1, period := 3, k := 2 } ∧
    (bollBands 3 2 [99999/100000, 1, 100001/100000]).lower =
      (bollBands 3 2 [99999/100000, 1, 100001/100000]).mid := by
  have hmid : bollMid 3 [99999/100000, 1, 100001/100000] = 1 := by
    unfold bollMid recentCloses
    norm_num
  have hvar : bollVar 3 [99999/100000, 1, 100001/100000] = 1/10000000000 := by
    unfold bollVar recentCloses
    rw [show (([99999/100000, 1, 100001/100000] : List ℚ).drop
      (([99999/100000, 1, 100001/100000] : List ℚ).length - 3)) =
      [99999/100000, 1, 100001/100000] by simp]
    rw [hmid]
    norm_num
  have hsd : bollSd 3 [99999/100000, 1, 100001/100000] = 1/100000 := by
    unfold bollSd
    rw [hvar]
    rw [show (((1/10000000000 : ℚ) : ℝ)) = (1/100000 : ℝ) ^ 2 by push_cast; norm_num]
    rw [Real.sqrt_sq (by norm_num)]
  have hup : round4 ((bollMid 3 [99999/100000, 1, 100001/100000] : ℝ)
      + ((2 : ℚ) : ℝ) * bollSd 3 [99999/100000, 1, 100001/100000]) = 1 := by
    rw [hmid, hsd]
    have h := @round4_eq_of_lt_half (((1 : ℚ) : ℝ) + ((2 : ℚ) : ℝ) * (1/100000)) 10000
      (by push_cast; norm_num) (by push_cast; norm_num)
    rw [h]
    norm_num
  have hlo : round4 ((bollMid 3 [99999/100000, 1, 100001/100000] : ℝ)
      - ((2 : ℚ) : ℝ) * bollSd 3 [99999/100000, 1, 100001/100000]) = 1 := by
    rw [hmid, hsd]
    have h := @round4_eq_of_gt_half (((1 : ℚ) : ℝ) - ((2 : ℚ) : ℝ) * (1/100000)) 10000
      (by push_cast; norm_num) (by push_cast; norm_num)
    rw [h]
    norm_num
  have hmr : round4 ((bollMid 3 [99999/100000, 1, 100001/100000] : ℝ)) = 1 := by
    rw [hmid]
    have h := @round4_exact 1 10000 (by norm_num)
    simpa using h
  have hbands : bollBands 3 2 [99999/100000, 1, 100001/100000] =
      { upper := 1, mid := 1, lower := 1, period := 3, k := 2 } := by
    unfold bollBands bollUpperRaw bollLowerRaw
    rw [hup, hmr, hlo]
  refine ⟨by rw [hvar]; norm_num, ?_, by rw [hbands]⟩
  unfold calculate_boll
  rw [if_neg (by simp), if_neg (by omega), hbands]

/-- The worked example's price series: 22 ascending values 100..121. -/
def pricesC10 : List ℚ :=
  [100, 101, 102, 103, 104, 105, 106, 107, 108, 109, 110, 111,
   112, 113, 114, 115, 116, 117, 118, 119, 120, 121]

theorem pricesC10_mid : bollMid 22 pricesC10 = 221/2 := by
  unfold bollMid recentCloses pricesC10
  norm_num

theorem pricesC10_var : bollVar 22 pricesC10 = 1771/42 := by
  unfold bollVar bollMid recentCloses pricesC10
  norm_num

theorem pricesC10_sd_bounds :
    (6.4935 : ℝ) < bollSd 22 pricesC10 ∧ bollSd 22 pricesC10 < 6.4936 := by
  unfold bollSd
  rw [pricesC10_var]
  constructor
  · apply (Real.lt_sqrt (by norm_num)).mpr
    push_cast
    norm_num
  · apply (Real.sqrt_lt' (by norm_num)).mpr
    push_cast
    norm_num

theorem pricesC10_upper_raw_bounds :
    (123.487 : ℝ) < bollUpperRaw 22 2 pricesC10 ∧
    bollUpperRaw 22 2 pricesC10 < 123.4872 := by
  have hsd := pricesC10_sd_bounds
  unfold bollUpperRaw
  rw [pricesC10_mid]
  push_cast
  constructor
  · nlinarith [hsd.1]
  · nlinarith [hsd.2]

theorem pricesC10_lower_raw_bounds :
    (97.5128 : ℝ) < bollLowerRaw 22 2 pricesC10 ∧
    bollLowerRaw 22 2 pricesC10 < 97.513 := by
  have hsd := pricesC10_sd_bounds
  unfold bollLowerRaw
  rw [pricesC10_mid]
  push_cast
  constructor
  · nlinarith [hsd.2]
  · nlinarith [hsd.1]

/-- C10 counterexample: the worked example's claimed numbers are the
population-formula values, not what the code computes.  On
`[100, ..., 121]` with `period = 22`, `k = 2`, the code's sample standard
deviation exceeds `6.345` by more than `0.1` (it is ≈ `6.4936`, the
claimed `6.345` is the population value), the returned upper band exceeds
the claimed `123.19` by more than `0.25`, and the returned lower band is
more than `0.25` below the claimed `97.81`. -/
theorem claim_C10_counterexample :
    bollMid 22 pricesC10 = 221/2 ∧
    (6.345 + 1/10 : ℝ) < bollSd 22 pricesC10 ∧
    (123.19 + 1/4 : ℚ) < (bollBands 22 2 pricesC10).upper ∧
    (bollBands 22 2 pricesC10).lower < (97.81 - 1/4 : ℚ) := by
  have hsd := pricesC10_sd_bounds
  have hup := pricesC10_upper_raw_bounds
  have hlo := pricesC10_lower_raw_bounds
  have hru := abs_round4_sub_le (bollUpperRaw 22 2 pricesC10)
  have hrl := abs_round4_sub_le (bollLowerRaw 22 2 pricesC10)
  rw [abs_le] at hru hrl
  refine ⟨pricesC10_mid, by linarith [hsd.1], ?_, ?_⟩
  · have hreal : ((123.19 + 1/4 : ℚ) : ℝ) < (((bollBands 22 2 pricesC10).upper : ℚ) : ℝ) := by
      have hub : ((round4 (bollUpperRaw 22 2 pricesC10) : ℚ) : ℝ) ≥
          bollUpperRaw 22 2 pricesC10 - 1/20000 := by linarith [hru.1]
      push_cast
      have : ((bollBands 22 2 pricesC10).upper : ℚ) = round4 (bollUpperRaw 22 2 pricesC10) := rfl
      rw [this]
      push_cast at hub ⊢
      linarith [hup.1]
    exact_mod_cast hreal
  · have hreal : (((bollBands 22 2 pricesC10).lower : ℚ) : ℝ) < ((97.81 - 1/4 : ℚ) : ℝ) := by
      have hlb : ((round4 (bollLowerRaw 22 2 pricesC10) : ℚ) : ℝ) ≤
          bollLowerRaw 22 2 pricesC10 + 1/20000 := by linarith [hrl.2]
      have : ((bollBands 22 2 pricesC10).lower : ℚ) = round4 (bollLowerRaw 22 2 pricesC10) := rfl
      rw [this]
      push_cast at hlb ⊢
      linarith [hlo.2]
    exact_mod_cast hreal

/-- C10 (amended to the sample-formula values the code computes): for
`[100, ..., 121]`, `period = 22`, `k = 2`, mid is exactly `110.5`; the
standard deviation is ≈ `6.4936` (sample formula; the spec's `6.345` is
the population value), the returned upper ≈ `123.4871` and lower ≈
`97.5129` (within `0.001`); and a current price of `96` classifies as
below_lower on the returned bands, for every threshold. -/
theorem claim_C10_worked_example :
    bollMid 22 pricesC10 = 221/2 ∧
    (bollBands 22 2 pricesC10).mid = 221/2 ∧
    |bollSd 22 pricesC10 - 6.4936| < 1/1000 ∧
    |((bollBands 22 2 pricesC10).upper : ℝ) - 123.4871| < 1/1000 ∧
    |((bollBands 22 2 pricesC10).lower : ℝ) - 97.5129| < 1/1000 ∧
    calculate_boll 22 2 pricesC10 = BollOutcome.ok (bollBands 22 2 pricesC10) ∧
    ∀ t : ℚ, classify (96 : ℚ) (bollBands 22 2 pricesC10).lower
      (bollBands 22 2 pricesC10).upper t = some Bucket.belowLower := by
  have hsd := pricesC10_sd_bounds
  have hup := pricesC10_upper_raw_bounds
  have hlo := pricesC10_lower_raw_bounds
  have hru := abs_round4_sub_le (bollUpperRaw 22 2 pricesC10)
  have hrl := abs_round4_sub_le (bollLowerRaw 22 2 pricesC10)
  rw [abs_le] at hru hrl
  have hlow96 : (96 : ℚ) < (bollBands 22 2 pricesC10).lower := by
    have hreal : ((96 : ℚ) : ℝ) < (((bollBands 22 2 pricesC10).lower : ℚ) : ℝ) := by
      have : ((bollBands 22 2 pricesC10).lower : ℚ) = round4 (bollLowerRaw 22 2 pricesC10) := rfl
      rw [this]
      push_cast at hrl ⊢
      linarith [hlo.1, hrl.1]
    exact_mod_cast hreal
  refine ⟨pricesC10_mid, ?_, ?_, ?_, ?_, ?_, ?_⟩
  · have : (bollBands 22 2 pricesC10).mid = round4 ((bollMid 22 pricesC10 : ℝ)) := rfl
    rw [this, pricesC10_mid]
    exact @round4_exact (221/2) 1105000 (by norm_num)
  · rw [abs_lt]
    constructor <;> linarith [hsd.1, hsd.2]
  · have : ((bollBands 22 2 pricesC10).upper : ℚ) = round4 (bollUpperRaw 22 2 pricesC10) := rfl
    rw [this, abs_lt]
    constructor <;> [linarith [hup.1, hru.1]; linarith [hup.2, hru.2]]
  · have : ((bollBands 22 2 pricesC10).lower : ℚ) = round4 (bollLowerRaw 22 2 pricesC10) := rfl
    rw [this, abs_lt]
    constructor <;> [linarith [hlo.1, hrl.1]; linarith [hlo.2, hrl.2]]
  · unfold calculate_boll
    rw [if_neg (by simp [pricesC10]), if_neg (by omega)]
  · intro t
    unfold classify
    rw [if_pos hlow96]

/-- An instrument counts as "found" when its data fetch succeeds and the
classifier puts it in some bucket. -/
def matchedInstrument (threshold : ℚ) (fetch : String → Option StockData)
    (s : String) : Bool :=
  match fetch s with
  | none => false
  | some d => (classify d.current_price d.lower d.upper threshold).isSome

theorem analyzeSymbols_ok_spec (s2n : List (String × String)) (thr : ℚ)
    (fetch : String → Option StockData) (symbols : List String) :
    ∀ bs : BucketLists,
      analyzeSymbols s2n thr fetch symbols = Except.ok bs →
      (bs.below_lower.length + bs.near_lower.length + bs.near_upper.length
          + bs.above_upper.length
        = (symbols.filter (fun s => matchedInstrument thr fetch s)).length) ∧
      (∀ si ∈ bs.below_lower,
        classify si.current_price si.lower_band si.upper_band thr = some Bucket.belowLower) ∧
      (∀ si ∈ bs.near_lower,
        classify si.current_price si.lower_band si.upper_band thr = some Bucket.nearLower) ∧
      (∀ si ∈ bs.near_upper,
        classify si.current_price si.lower_band si.upper_band thr = some Bucket.nearUpper) ∧
      (∀ si ∈ bs.above_upper,
        classify si.current_price si.lower_band si.upper_band thr = some Bucket.aboveUpper) := by
  induction symbols with
  | nil =>
    intro bs h
    simp only [analyzeSymbols, Except.ok.injEq] at h
    subst h
    simp
  | cons s rest ih =>
    intro bs h
    simp only [analyzeSymbols] at h
    cases hf : fetch s with
    | none =>
      rw [hf] at h
      dsimp only [] at h
      have hm : matchedInstrument thr fetch s = false := by
        simp [matchedInstrument, hf]
      rw [List.filter_cons, hm]
      exact ih bs h
    | some d =>
      rw [hf] at h
      dsimp only [] at h
      by_cases hl : d.lower = 0
      · rw [if_pos hl] at h
        cases h
      · rw [if_neg hl] at h
        by_cases hu : d.upper = 0
        · rw [if_pos hu] at h
          cases h
        · rw [if_neg hu] at h
          cases hc : classify d.current_price d.lower d.upper thr with
          | none =>
            rw [hc] at h
            dsimp only [] at h
            have hm : matchedInstrument thr fetch s = false := by
              simp [matchedInstrument, hf, hc]
            rw [List.filter_cons, hm]
            exact ih bs h
          | some b =>
            rw [hc] at h
            dsimp only [] at h
            cases hr : analyzeSymbols s2n thr fetch rest with
            | error e =>
              rw [hr] at h
              cases h
            | ok bs' =>
              rw [hr] at h
              simp only [Except.map, Except.ok.injEq] at h
              subst h
              obtain ⟨ihlen, ihbl, ihnl, ihnu, ihau⟩ := ih bs' hr
              have hm : matchedInstrument thr fetch s = true := by
                simp [matchedInstrument, hf, hc]
              rw [List.filter_cons, hm]
              have hsi : classify (mkStockInfo s s2n d).current_price
                  (mkStockInfo s s2n d).lower_band
                  (mkStockInfo s s2n d).upper_band thr = some b := hc
              cases b <;>
                refine ⟨by simp [addToBucket]; omega, ?_, ?_, ?_, ?_⟩ <;>
                  simp only [addToBucket, List.mem_cons] <;>
                    first
                      | (intro si hsi'
                         rcases hsi' with rfl | hsi'
                         · exact hsi
                         · first
                             | exact ihbl si hsi'
                             | exact ihnl si hsi'
                             | exact ihnu si hsi'
                             | exact ihau si hsi')
                      | (intro si hsi'
                         first
                           | exact ihbl si hsi'
                           | exact ihnl si hsi'
                           | exact ihnu si hsi'
                           | exact ihau si hsi')

/-- C5 (amended: the invariant holds for every ScanResult produced by a
scan, and is preserved by serialize-then-deserialize; it is NOT enforced
by deserialization itself — see the counterexample):  whenever
`analyze_all_stocks` succeeds, `total_found` equals the sum of the four
bucket lengths, equals the number of successfully analyzed instruments
that matched a bucket (instruments skipped by the fetch appear in no
bucket and no count), `total_analyzed` is the full instrument count, each
bucket holds only snapshots the classifier assigns to exactly that
bucket — making the four buckets mutually exclusive — and a round trip
through the persisted dictionary preserves the result unchanged. -/
theorem claim_C5_result_invariant (symbols : List String)
    (s2n : List (String × String)) (period : ℕ) (k thr : ℚ) (ut : String)
    (fetch : String → Option StockData) (r : WatchlistBollFilterResult)
    (h : analyzeAllStocks symbols s2n period k thr ut fetch = Except.ok r) :
    r.total_found = r.below_lower.length + r.near_lower.length
        + r.near_upper.length + r.above_upper.length ∧
    r.total_found = (symbols.filter (fun s => matchedInstrument thr fetch s)).length ∧
    r.total_analyzed = symbols.length ∧
    (∀ si ∈ r.below_lower,
      classify si.current_price si.lower_band si.upper_band thr = some Bucket.belowLower) ∧
    (∀ si ∈ r.near_lower,
      classify si.current_price si.lower_band si.upper_band thr = some Bucket.nearLower) ∧
    (∀ si ∈ r.near_upper,
      classify si.current_price si.lower_band si.upper_band thr = some Bucket.nearUpper) ∧
    (∀ si ∈ r.above_upper,
      classify si.current_price si.lower_band si.upper_band thr = some Bucket.aboveUpper) ∧
    r.below_lower.Disjoint r.near_lower ∧
    r.below_lower.Disjoint r.near_upper ∧
    r.below_lower.Disjoint r.above_upper ∧
    r.near_lower.Disjoint r.near_upper ∧
    r.near_lower.Disjoint r.above_upper ∧
    r.near_upper.Disjoint r.above_upper ∧
    from_dict (to_dict r) = r := by
  unfold analyzeAllStocks at h
  cases hr : analyzeSymbols s2n thr fetch symbols with
  | error e =>
    rw [hr] at h
    cases h
  | ok bs =>
    rw [hr] at h
    simp only [Except.map, Except.ok.injEq] at h
    subst h
    obtain ⟨hlen, hbl, hnl, hnu, hau⟩ := analyzeSymbols_ok_spec s2n thr fetch symbols bs hr
    have hbl' : ∀ si ∈ sortLe dflAsc bs.below_lower,
        classify si.current_price si.lower_band si.upper_band thr = some Bucket.belowLower :=
      fun si hsi => hbl si ((mem_sortLe dflAsc si _).mp hsi)
    have hnl' : ∀ si ∈ sortLe dflAsc bs.near_lower,
        classify si.current_price si.lower_band si.upper_band thr = some Bucket.nearLower :=
      fun si hsi => hnl si ((mem_sortLe dflAsc si _).mp hsi)
    have hnu' : ∀ si ∈ sortLe dfuDesc bs.near_upper,
        classify si.current_price si.lower_band si.upper_band thr = some Bucket.nearUpper :=
      fun si hsi => hnu si ((mem_sortLe dfuDesc si _).mp hsi)
    have hau' : ∀ si ∈ sortLe dfuDesc bs.above_upper,
        classify si.current_price si.lower_band si.upper_band thr = some Bucket.aboveUpper :=
      fun si hsi => hau si ((mem_sortLe dfuDesc si _).mp hsi)
    refine ⟨by simp [sortLe_length], by simpa using hlen, rfl,
      hbl', hnl', hnu', hau', ?_, ?_, ?_, ?_, ?_, ?_,
      from_dict_to_dict _⟩
    · intro si h1 h2
      have e1 := hbl' si h1
      have e2 := hnl' si h2
      rw [e1] at e2
      simp at e2
    · intro si h1 h2
      have e1 := hbl' si h1
      have e2 := hnu' si h2
      rw [e1] at e2
      simp at e2
    · intro si h1 h2
      have e1 := hbl' si h1
      have e2 := hau' si h2
      rw [e1] at e2
      simp at e2
    · intro si h1 h2
      have e1 := hnl' si h1
      have e2 := hnu' si h2
      rw [e1] at e2
      simp at e2
    · intro si h1 h2
      have e1 := hnl' si h1
      have e2 := hau' si h2
      rw [e1] at e2
      simp at e2
    · intro si h1 h2
      have e1 := hnu' si h1
      have e2 := hau' si h2
      rw [e1] at e2
      simp at e2

/-- A schema-complete persisted dictionary whose summary disagrees with
its (empty) bucket lists: `total_found` says 1, the lists say 0. -/
def inconsistentDict : ResultDict :=
  { config := some { period := some 22, k := some 2, threshold := some (1/10) }
    summary := some
      { total_analyzed := some 1
        total_found := some 1
        below_lower_count := some 0
        near_lower_count := some 0
        near_upper_count := some 0
        above_upper_count := some 0
        update_time := some "2025-01-01 00:00:00" }
    results := some
      { below_lower := some [], near_lower := some [],
        near_upper := some [], above_upper := some [] }
    all_symbols := some []
    symbol_to_name := some [] }

/-- C5 counterexample: the claim's "this holds for any ScanResult,
including one reconstructed by deserialization" fails — `from_dict`
copies `total_found` without recomputing or validating it, so
deserializing a (schema-complete) dictionary whose summary disagrees
with its lists yields a ScanResult with `total_found = 1` but all four
buckets empty. -/
theorem claim_C5_counterexample :
    (from_dict inconsistentDict).total_found = 1 ∧
    (from_dict inconsistentDict).below_lower.length
      + (from_dict inconsistentDict).near_lower.length
      + (from_dict inconsistentDict).near_upper.length
      + (from_dict inconsistentDict).above_upper.length = 0 :=
  ⟨rfl, rfl⟩

def stockDataC5 : StockData :=
  { current_price := 1, upper := 4, mid := 3, lower := 2 }

def witnessSnapshotC5 : StockInfo :=
  { symbol := "A.US", display_name := "A.US", current_price := 1, lower_band := 2,
    mid_band := 3, upper_band := 4, distance_from_lower_pct := -50,
    distance_from_upper_pct := -75, position_pct := -50,
    currency_symbol := "$", currency_code := "USD" }

def witnessBucketsC5 : BucketLists :=
  { below_lower := [witnessSnapshotC5], near_lower := [],
    near_upper := [], above_upper := [] }

def witnessResultC5 : WatchlistBollFilterResult :=
  { period := 22, k := 2, threshold := 1/10, total_analyzed := 1, total_found := 1,
    update_time := "t", below_lower := [witnessSnapshotC5], near_lower := [],
    near_upper := [], above_upper := [], all_symbols := ["A.US"], symbol_to_name := [] }

theorem analyzeAllStocks_witnessC5 :
    analyzeAllStocks ["A.US"] [] 22 2 (1/10) "t" (fun _ => some stockDataC5) =
      Except.ok witnessResultC5 := by
  have hclass : classify stockDataC5.current_price stockDataC5.lower
      stockDataC5.upper (1/10) = some Bucket.belowLower := by
    unfold classify stockDataC5
    rw [if_pos (by norm_num)]
  have hsi : mkStockInfo "A.US" [] stockDataC5 = witnessSnapshotC5 := by
    have hus : strEndsWith "A.US" ".US" = true := by decide
    have hcur : get_currency_info "A.US" = ("$", "USD") := by decide
    unfold mkStockInfo stockDataC5 witnessSnapshotC5
    rw [hcur]
    simp only [hus, if_true]
    norm_num
  have hrun : analyzeSymbols [] (1/10) (fun _ => some stockDataC5) ["A.US"] =
      Except.ok witnessBucketsC5 := by
    unfold witnessBucketsC5
    simp only [analyzeSymbols]
    rw [if_neg (by norm_num [stockDataC5]), if_neg (by norm_num [stockDataC5]), hclass]
    dsimp only [Except.map, addToBucket]
    rw [hsi]
  unfold analyzeAllStocks
  rw [hrun]
  dsimp only [Except.map]
  unfold witnessResultC5
  simp [sortLe, insertLe, witnessBucketsC5]

/-- C5 witness: the concrete one-instrument scan where the fetched data
is `(price 1, bands 2/3/4)`; the instrument lands in below_lower and the
invariant conjuncts hold for the produced result. -/
theorem claim_C5_witness :
    (analyzeAllStocks ["A.US"] [] 22 2 (1/10) "t" (fun _ => some stockDataC5) =
      Except.ok witnessResultC5) ∧
    witnessResultC5.total_found = witnessResultC5.below_lower.length
      + witnessResultC5.near_lower.length + witnessResultC5.near_upper.length
      + witnessResultC5.above_upper.length ∧
    witnessResultC5.total_found =
      (["A.US"].filter
        (fun s => matchedInstrument (1/10) (fun _ => some stockDataC5) s)).length ∧
    from_dict (to_dict witnessResultC5) = witnessResultC5 :=
  ⟨analyzeAllStocks_witnessC5,
   (claim_C5_result_invariant ["A.US"] [] 22 2 (1/10) "t"
     (fun _ => some stockDataC5) witnessResultC5 analyzeAllStocks_witnessC5).1,
   (claim_C5_result_invariant ["A.US"] [] 22 2 (1/10) "t"
     (fun _ => some stockDataC5) witnessResultC5 analyzeAllStocks_witnessC5).2.1,
   (claim_C5_result_invariant ["A.US"] [] 22 2 (1/10) "t"
     (fun _ => some stockDataC5) witnessResultC5
     analyzeAllStocks_witnessC5).2.2.2.2.2.2.2.2.2.2.2.2.2⟩

theorem insertLe_perm {α : Type} (le : α → α → Bool) (a : α) (l : List α) :
    (insertLe le a l).Perm (a :: l) := by
  induction l with
  | nil => exact List.Perm.refl _
  | cons b l ih =>
    simp only [insertLe]
    split
    · exact List.Perm.refl _
    · exact (ih.cons b).trans (List.Perm.swap a b l)

theorem sortLe_perm {α : Type} (le : α → α → Bool) (l : List α) :
    (sortLe le l).Perm l := by
  induction l with
  | nil => exact List.Perm.refl _
  | cons a l ih => exact (insertLe_perm le a (sortLe le l)).trans (ih.cons a)

theorem mem_enumFrom_filter_map {α : Type} (P : ℕ × α → Bool) (l : List α) :
    ∀ (n : ℕ) (x : α),
      x ∈ ((l.enumFrom n).filter P).map Prod.snd ↔
        ∃ i : ℕ, l.get? i = some x ∧ P (n + i, x) = true := by
  induction l with
  | nil =>
    intro n x
    simp [List.enumFrom]
  | cons a l ih =>
    intro n x
    simp only [List.enumFrom, List.filter_cons]
    by_cases hP : P (n, a) = true
    · rw [if_pos hP]
      simp only [List.map_cons, List.mem_cons, ih]
      constructor
      · rintro (rfl | ⟨i, hget, hPi⟩)
        · exact ⟨0, by simp, by simpa using hP⟩
        · exact ⟨i + 1, by simpa using hget,
            by rw [show n + (i + 1) = n + 1 + i by omega]; exact hPi⟩
      · rintro ⟨i, hget, hPi⟩
        cases i with
        | zero =>
          left
          have : a = x := by simpa using hget
          exact this.symm
        | succ i =>
          right
          exact ⟨i, by simpa using hget,
            by rw [show n + 1 + i = n + (i + 1) by omega]; exact hPi⟩
    · rw [if_neg hP]
      rw [ih]
      constructor
      · rintro ⟨i, hget, hPi⟩
        exact ⟨i + 1, by simpa using hget,
          by rw [show n + (i + 1) = n + 1 + i by omega]; exact hPi⟩
      · rintro ⟨i, hget, hPi⟩
        cases i with
        | zero =>
          have hax : a = x := by simpa using hget
          subst hax
          exact absurd (by simpa using hPi) hP
        | succ i =>
          exact ⟨i, by simpa using hget,
            by rw [show n + 1 + i = n + (i + 1) by omega]; exact hPi⟩

theorem shouldDelete_iff (cfg : CleanupConfig) (now : ℚ) (i : ℕ) (f : ReportFile) :
    shouldDelete cfg now i f = true ↔
      ((0 < cfg.keep_count ∧ cfg.keep_count ≤ (i : ℤ)) ∨
       (0 < cfg.keep_days ∧ (cfg.keep_days : ℚ) < (now - f.mtime) / (24 * 3600))) := by
  simp [shouldDelete]

theorem mem_cleanup_iff (cfg : CleanupConfig) (now : ℚ) (dir : List ReportFile)
    (hen : cfg.enabled = true) (hnd : dir.Nodup) (i : ℕ)
    (hi : i < (sortLe mtimeDesc (dir.filter (fun f => matchesReportGlob f.name))).length) :
    ((sortLe mtimeDesc (dir.filter (fun f => matchesReportGlob f.name))).get ⟨i, hi⟩ ∈
        cleanup_old_reports cfg now dir ↔
      ((0 < cfg.keep_count ∧ cfg.keep_count ≤ (i : ℤ)) ∨
       (0 < cfg.keep_days ∧ (cfg.keep_days : ℚ) <
         (now - ((sortLe mtimeDesc (dir.filter
           (fun f => matchesReportGlob f.name))).get ⟨i, hi⟩).mtime) / (24 * 3600)))) := by
  have hsortnd : (sortLe mtimeDesc (dir.filter (fun f => matchesReportGlob f.name))).Nodup :=
    ((sortLe_perm mtimeDesc _).nodup_iff).mpr (hnd.filter _)
  unfold cleanup_old_reports
  rw [if_neg (by rw [hen]; simp)]
  rw [show (sortLe mtimeDesc (dir.filter (fun f => matchesReportGlob f.name))).enum =
    (sortLe mtimeDesc (dir.filter (fun f => matchesReportGlob f.name))).enumFrom 0 from rfl]
  rw [mem_enumFrom_filter_map]
  constructor
  · rintro ⟨j, hget, hP⟩
    rcases List.get?_eq_some.mp hget with ⟨hj, hgetj⟩
    have hij : j = i := by
      have h2 := (List.Nodup.get_inj_iff hsortnd).mp hgetj
      exact congrArg Fin.val h2
    subst hij
    simp only [Nat.zero_add] at hP
    exact (shouldDelete_iff cfg now j _).mp hP
  · intro hc
    refine ⟨i, List.get?_eq_some.mpr ⟨hi, rfl⟩, ?_⟩
    simp only [Nat.zero_add]
    exact (shouldDelete_iff cfg now i _).mpr hc

/-- The ten report artifacts of the spec's retention example, aged
`i = 1..10` days at observation time `864000`. -/
def reportFileC9 (i : ℕ) : ReportFile :=
  { name := "boll_report_" ++ toString i ++ ".html", mtime := 864000 - 86400 * i }

def reportDirC9 : List ReportFile :=
  [reportFileC9 1, reportFileC9 2, reportFileC9 3, reportFileC9 4, reportFileC9 5,
   reportFileC9 6, reportFileC9 7, reportFileC9 8, reportFileC9 9, reportFileC9 10]

theorem dirC9_filter :
    reportDirC9.filter (fun f => matchesReportGlob f.name) = reportDirC9 := by
  have h1 : matchesReportGlob (reportFileC9 1).name = true := by decide
  have h2 : matchesReportGlob (reportFileC9 2).name = true := by decide
  have h3 : matchesReportGlob (reportFileC9 3).name = true := by decide
  have h4 : matchesReportGlob (reportFileC9 4).name = true := by decide
  have h5 : matchesReportGlob (reportFileC9 5).name = true := by decide
  have h6 : matchesReportGlob (reportFileC9 6).name = true := by decide
  have h7 : matchesReportGlob (reportFileC9 7).name = true := by decide
  have h8 : matchesReportGlob (reportFileC9 8).name = true := by decide
  have h9 : matchesReportGlob (reportFileC9 9).name = true := by decide
  have h10 : matchesReportGlob (reportFileC9 10).name = true := by decide
  simp only [reportDirC9, List.filter_cons, List.filter_nil, h1, h2, h3, h4, h5, h6, h7,
    h8, h9, h10, if_true]

theorem dirC9_sorted : sortLe mtimeDesc reportDirC9 = reportDirC9 := by
  have h1 : mtimeDesc (reportFileC9 1) (reportFileC9 2) = true := by
    simp only [mtimeDesc, reportFileC9, decide_eq_true_eq]
    norm_num
  have h2 : mtimeDesc (reportFileC9 2) (reportFileC9 3) = true := by
    simp only [mtimeDesc, reportFileC9, decide_eq_true_eq]
    norm_num
  have h3 : mtimeDesc (reportFileC9 3) (reportFileC9 4) = true := by
    simp only [mtimeDesc, reportFileC9, decide_eq_true_eq]
    norm_num
  have h4 : mtimeDesc (reportFileC9 4) (reportFileC9 5) = true := by
    simp only [mtimeDesc, reportFileC9, decide_eq_true_eq]
    norm_num
  have h5 : mtimeDesc (reportFileC9 5) (reportFileC9 6) = true := by
    simp only [mtimeDesc, reportFileC9, decide_eq_true_eq]
    norm_num
  have h6 : mtimeDesc (reportFileC9 6) (reportFileC9 7) = true := by
    simp only [mtimeDesc, reportFileC9, decide_eq_true_eq]
    norm_num
  have h7 : mtimeDesc (reportFileC9 7) (reportFileC9 8) = true := by
    simp only [mtimeDesc, reportFileC9, decide_eq_true_eq]
    norm_num
  have h8 : mtimeDesc (reportFileC9 8) (reportFileC9 9) = true := by
    simp only [mtimeDesc, reportFileC9, decide_eq_true_eq]
    norm_num
  have h9 : mtimeDesc (reportFileC9 9) (reportFileC9 10) = true := by
    simp only [mtimeDesc, reportFileC9, decide_eq_true_eq]
    norm_num
  simp only [reportDirC9, sortLe, insertLe, h1, h2, h3, h4, h5, h6, h7, h8, h9, if_true]

/-- C9: the Retention Manager deletes exactly those report artifacts that
are older than `keep_days` or ranked beyond the `keep_count`
most-recently-modified ones (the union of the two criteria, a criterion
valued 0 being disabled), never touches anything that does not match the
report glob — in particular the `latest_result.json` cache is always
preserved — and deletes nothing when cleanup is disabled.  The ranking is
the position in the newest-first order (the sorted list is pairwise
descending in mtime).  On the spec's example of 10 artifacts aged 1..10
days: with `keep_days = 5, keep_count = 100` exactly the 5 artifacts
older than 5 days are deleted; with `keep_days = 0, keep_count = 3` all
but the 3 most recently modified are deleted. -/
theorem claim_C9_retention_policy (cfg : CleanupConfig) (now : ℚ)
    (dir : List ReportFile) (hnd : dir.Nodup) :
    (cfg.enabled = false → cleanup_old_reports cfg now dir = []) ∧
    (∀ f ∈ cleanup_old_reports cfg now dir, matchesReportGlob f.name = true) ∧
    "latest_result.json" ∉ (cleanup_old_reports cfg now dir).map ReportFile.name ∧
    (sortLe mtimeDesc (dir.filter (fun f => matchesReportGlob f.name))).Pairwise
      (fun a b => b.mtime ≤ a.mtime) ∧
    (cfg.enabled = true →
      ∀ (i : ℕ)
        (hi : i < (sortLe mtimeDesc (dir.filter (fun f => matchesReportGlob f.name))).length),
        ((sortLe mtimeDesc (dir.filter (fun f => matchesReportGlob f.name))).get ⟨i, hi⟩ ∈
            cleanup_old_reports cfg now dir ↔
          ((0 < cfg.keep_count ∧ cfg.keep_count ≤ (i : ℤ)) ∨
           (0 < cfg.keep_days ∧ (cfg.keep_days : ℚ) <
             (now - ((sortLe mtimeDesc (dir.filter
               (fun f => matchesReportGlob f.name))).get ⟨i, hi⟩).mtime) / (24 * 3600))))) ∧
    cleanup_old_reports { enabled := true, keep_days := 5, keep_count := 100 }
        864000 reportDirC9 =
      [reportFileC9 6, reportFileC9 7, reportFileC9 8, reportFileC9 9, reportFileC9 10] ∧
    cleanup_old_reports { enabled := true, keep_days := 0, keep_count := 3 }
        864000 reportDirC9 =
      [reportFileC9 4, reportFileC9 5, reportFileC9 6, reportFileC9 7, reportFileC9 8,
       reportFileC9 9, reportFileC9 10] := by
  have hglob : ∀ f ∈ cleanup_old_reports cfg now dir, matchesReportGlob f.name = true := by
    intro f hf
    cases hcen : cfg.enabled with
    | false =>
      unfold cleanup_old_reports at hf
      rw [hcen] at hf
      simp at hf
    | true =>
      unfold cleanup_old_reports at hf
      rw [if_neg (by rw [hcen]; simp)] at hf
      rw [show (sortLe mtimeDesc (dir.filter (fun f => matchesReportGlob f.name))).enum =
        (sortLe mtimeDesc (dir.filter (fun f => matchesReportGlob f.name))).enumFrom 0
          from rfl] at hf
      obtain ⟨i, hget, -⟩ := (mem_enumFrom_filter_map _ _ 0 f).mp hf
      have hmem : f ∈ sortLe mtimeDesc (dir.filter (fun f => matchesReportGlob f.name)) :=
        List.get?_mem hget
      have hmem2 : f ∈ dir.filter (fun f => matchesReportGlob f.name) :=
        (mem_sortLe _ _ _).mp hmem
      exact (List.mem_filter.mp hmem2).2
  refine ⟨?_, hglob, ?_, ?_, ?_, ?_, ?_⟩
  · intro h
    unfold cleanup_old_reports
    rw [h]
    rfl
  · intro hmem
    obtain ⟨f, hf, hname⟩ := List.mem_map.mp hmem
    have hg := hglob f hf
    rw [hname] at hg
    exact absurd hg (by decide)
  · have htot : ∀ x y : ReportFile, mtimeDesc x y = false → mtimeDesc y x = true := by
      intro x y hxy
      simp only [mtimeDesc, decide_eq_true_eq]
      simp only [mtimeDesc, decide_eq_false_iff_not] at hxy
      linarith [le_of_not_le hxy]
    have htrans : ∀ x y z : ReportFile,
        mtimeDesc x y = true → mtimeDesc y z = true → mtimeDesc x z = true := by
      intro x y z hxy hyz
      simp only [mtimeDesc, decide_eq_true_eq] at hxy hyz ⊢
      linarith
    exact (sortLe_sorted mtimeDesc htot htrans _).imp (fun h => of_decide_eq_true h)
  · intro hen i hi
    exact mem_cleanup_iff cfg now dir hen hnd i hi
  · unfold cleanup_old_reports
    rw [if_neg (by decide), dirC9_filter, dirC9_sorted]
    simp only [reportDirC9, List.enum, List.enumFrom, List.filter_cons, List.filter_nil,
      shouldDelete, reportFileC9]
    norm_num
  · unfold cleanup_old_reports
    rw [if_neg (by decide), dirC9_filter, dirC9_sorted]
    simp only [reportDirC9, List.enum, List.enumFrom, List.filter_cons, List.filter_nil,
      shouldDelete, reportFileC9]
    norm_num

/-- C9 witness: the two worked examples and the preservation of the
`latest_result.json` cache, instantiated on the concrete 10-artifact
directory. -/
theorem claim_C9_witness :
    cleanup_old_reports { enabled := true, keep_days := 5, keep_count := 100 }
        864000 reportDirC9 =
      [reportFileC9 6, reportFileC9 7, reportFileC9 8, reportFileC9 9, reportFileC9 10] ∧
    cleanup_old_reports { enabled := true, keep_days := 0, keep_count := 3 }
        864000 reportDirC9 =
      [reportFileC9 4, reportFileC9 5, reportFileC9 6, reportFileC9 7, reportFileC9 8,
       reportFileC9 9, reportFileC9 10] ∧
    "latest_result.json" ∉
      (cleanup_old_reports { enabled := true, keep_days := 5, keep_count := 100 }
        864000 reportDirC9).map ReportFile.name := by
  have hnd : reportDirC9.Nodup := by
    have hnames : (reportDirC9.map ReportFile.name).Nodup := by decide
    exact hnames.of_map
  have h1 := claim_C9_retention_policy
    { enabled := true, keep_days := 5, keep_count := 100 } 864000 reportDirC9 hnd
  have h2 := claim_C9_retention_policy
    { enabled := true, keep_days := 0, keep_count := 3 } 864000 reportDirC9 hnd
  exact ⟨h1.2.2.2.2.2.1, h2.2.2.2.2.2.2, h1.2.2.1⟩
